import Mathlib

/-!
Shallow embedding of the AeroLaunch core (src/main.py): the application
entry model, JSON config persistence, registry mutations, the launch
sweep and platform discovery, together with theorems settling the
specification claims.
-/

namespace AeroLaunch

/-- JSON values as produced by `json.load` / consumed by `json.dump`. -/
inductive Json where
  | null : Json
  | bool (b : Bool) : Json
  | num (n : Int) : Json
  | str (s : String) : Json
  | arr (xs : List Json) : Json
  | obj (kvs : List (String × Json)) : Json

/-- The `FlightApp` record (src/main.py:31-35): a name, an optional
discovered path (`None` in Python is `none` here) and the persisted
checked flag. -/
structure FlightApp where
  name : String
  path : Option String
  default_checked : Bool
deriving DecidableEq

/-- Embedding of `FlightApp.to_dict` (src/main.py:37-42). -/
def to_dict (a : FlightApp) : Json :=
  .obj [("name", .str a.name),
        ("path", match a.path with | some p => .str p | none => .null),
        ("default_checked", .bool a.default_checked)]

/-- First-match association lookup, the semantics of `dict.get` on the
parsed JSON object. -/
def jlookup (kvs : List (String × Json)) (k : String) : Option Json :=
  match kvs with
  | [] => none
  | (k', v) :: rest => if k' = k then some v else jlookup rest k

/-- Embedding of `FlightApp.from_dict` (src/main.py:44-50). Decoding requires an
object whose `name` field is a string; an element that is not such an
object makes the surrounding load raise, which the load model routes to
its reset branch. A non-string `path` decodes as absent and a
non-boolean `default_checked` as the Python default `False`. -/
def from_dict (j : Json) : Option FlightApp :=
  match j with
  | .obj kvs =>
    match jlookup kvs "name" with
    | some (.str n) =>
      let p : Option String :=
        match jlookup kvs "path" with
        | some (.str s) => some s
        | _ => none
      let c : Bool :=
        match jlookup kvs "default_checked" with
        | some (.bool b) => b
        | _ => false
      some ⟨n, p, c⟩
    | _ => none
  | _ => none

/-- Decode a whole platform array; fails if any element fails, the way
the list comprehension in `_load_config` raises on a bad element. -/
def allDecode (xs : List Json) : Option (List FlightApp) :=
  match xs with
  | [] => some []
  | x :: rest =>
    match from_dict x, allDecode rest with
    | some a, some l => some (a :: l)
    | _, _ => none

/-- Python truthiness of a JSON value, as tested by `if apps_data:`. -/
def jsonTruthy : Json → Bool
  | .null => false
  | .bool b => b
  | .num n => n ≠ 0
  | .str s => s ≠ ""
  | .arr xs => !xs.isEmpty
  | .obj kvs => !kvs.isEmpty

/-- Semantics of `existing_config[current_platform] = apps_for_platform`: replace the
value at the key in place, appending when the key is new (a parsed JSON
object never carries a key twice, so first-occurrence replacement is
dict assignment). -/
def setKey : List (String × Json) → String → Json → List (String × Json)
  | [], k, v => [(k, v)]
  | (k1, v1) :: rest, k, v =>
    if k1 = k then (k, v) :: rest else (k1, v1) :: setKey rest k v

/-- The state of the configuration file on disk: absent, present but not
valid JSON, or holding a parsed JSON value. -/
inductive ConfigFile where
  | absent : ConfigFile
  | invalid : ConfigFile
  | valid (j : Json) : ConfigFile

/-- The seed list built in `MainWindow.__init__` (src/main.py:110-114).
Note the second entry is spelled `Elevatex`. -/
def initApps : List FlightApp :=
  [⟨"Microsoft Flight Simulator", none, true⟩,
   ⟨"Elevatex", none, false⟩,
   ⟨"Navigraph Charts", none, false⟩]

/-- The seed list rebuilt inside the error handlers of `_load_config`
(src/main.py:148-152 and 158-162). Note the second entry is spelled
`ElevateX`. -/
def resetApps : List FlightApp :=
  [⟨"Microsoft Flight Simulator", none, true⟩,
   ⟨"ElevateX", none, false⟩,
   ⟨"Navigraph Charts", none, false⟩]

/-- Embedding of `_save_config` (src/main.py:165-185): read the existing document if
present and parseable (an unparseable one is treated as empty), replace
the array under the current platform key, write the whole document back.
`writeFails` models an IO failure of the write; a parsed document that is
not a JSON object makes the key assignment raise.  Returns the file state
after the call and whether the error handler surfaced a message. -/
def save_config (p : String) (writeFails : Bool) (f : ConfigFile)
    (apps : List FlightApp) : ConfigFile × Bool :=
  let existing : Option (List (String × Json)) :=
    match f with
    | .absent => some []
    | .invalid => some []
    | .valid (.obj kvs) => some kvs
    | .valid _ => none
  match existing with
  | none => (f, true)
  | some kvs =>
    if writeFails then (f, true)
    else (.valid (.obj (setKey kvs p (.arr (apps.map to_dict)))), false)

/-- Result of `_load_config`: the in-memory list afterwards, whether a
critical config warning was surfaced, and the file state afterwards. -/
structure LoadResult where
  apps : List FlightApp
  warned : Bool
  fileAfter : ConfigFile

/-- Embedding of `_load_config` (src/main.py:124-163). `p` is `sys.platform`,
`current` the in-memory list at entry (the `__init__` seeds at startup).
Absent file: keep `current` and persist. Parse failure: reset to
`resetApps`, surface a warning, persist. Parsed document: a truthy array
under the platform key replaces the list when every element decodes
(a bad element raises into the generic handler, which also resets);
a missing or falsy value keeps `current` and persists; any other parsed
shape raises while being iterated and resets. -/
def load_config (p : String) (current : List FlightApp) (writeFails : Bool)
    (f : ConfigFile) : LoadResult :=
  match f with
  | .absent => ⟨current, false, (save_config p writeFails .absent current).1⟩
  | .invalid => ⟨resetApps, true, (save_config p writeFails .invalid resetApps).1⟩
  | .valid j =>
    match j with
    | .obj kvs =>
      let appsData := (jlookup kvs p).getD (.arr [])
      if jsonTruthy appsData then
        match appsData with
        | .arr xs =>
          match allDecode xs with
          | some apps => ⟨apps, false, .valid (.obj kvs)⟩
          | none => ⟨resetApps, true, (save_config p writeFails (.valid (.obj kvs)) resetApps).1⟩
        | _ => ⟨resetApps, true, (save_config p writeFails (.valid (.obj kvs)) resetApps).1⟩
      else ⟨current, false, (save_config p writeFails (.valid (.obj kvs)) current).1⟩
    | _ => ⟨resetApps, true, (save_config p writeFails (.valid j) resetApps).1⟩

/-- File states whose read-merge step of `_save_config` succeeds: absent,
unparseable (treated as empty) or a parsed JSON object. Only a parsed
non-object value makes the key assignment raise. -/
def mergeReadable : ConfigFile → Bool
  | .absent => true
  | .invalid => true
  | .valid (.obj _) => true
  | .valid _ => false

/-- Python's `str.lower()`, written as a structural map over the
characters so that it evaluates. -/
def pyLower (s : String) : String := ⟨s.data.map Char.toLower⟩

/-- Outcome of one user-triggered registry operation, matching the
message boxes the handlers show. -/
inductive OpOutcome where
  | added : OpOutcome
  | edited : OpOutcome
  | removed : OpOutcome
  | cancelled : OpOutcome
  | noSelection : OpOutcome
  | emptyName : OpOutcome
  | emptyPath : OpOutcome
  | duplicateName : OpOutcome
deriving DecidableEq

/-- Embedding of `_add_custom_application` (src/main.py:330-360). `ok1`/`appName` are
the initial `QInputDialog` outcome, `accepted`/`newName`/`newPath` the
details-dialog outcome. Python truthiness of a string is modelled as
being nonempty. The duplicate check against the final name runs only
when it differs case-insensitively from the prompted name; the final
name's emptiness is never checked. -/
def add_custom_application (apps : List FlightApp) (ok1 : Bool)
    (appName : String) (accepted : Bool) (newName newPath : String) :
    List FlightApp × OpOutcome :=
  if ok1 ∧ appName ≠ "" then
    if apps.any (fun a => pyLower a.name = pyLower appName) then
      (apps, .duplicateName)
    else if accepted then
      if newPath = "" then (apps, .emptyPath)
      else if pyLower newName ≠ pyLower appName ∧
              apps.any (fun a => pyLower a.name = pyLower newName) then
        (apps, .duplicateName)
      else (apps ++ [⟨newName, some newPath, false⟩], .added)
    else (apps, .cancelled)
  else if ok1 ∧ appName = "" then (apps, .emptyName)
  else (apps, .cancelled)

/-- Embedding of `_edit_selected_application` (src/main.py:362-398). `i` is the index
of the selected entry; the duplicate check excludes the entry itself by
identity, which the index model renders as `eraseIdx i`. On success the
entry's name and path are overwritten in place, keeping its checked
flag. -/
def edit_application (apps : List FlightApp) (i : Nat) (accepted : Bool)
    (newName newPath : String) : List FlightApp × OpOutcome :=
  match apps[i]? with
  | none => (apps, .noSelection)
  | some a =>
    if accepted then
      if newName = "" then (apps, .emptyName)
      else if newPath = "" then (apps, .emptyPath)
      else if pyLower newName ≠ pyLower a.name ∧
              (apps.eraseIdx i).any (fun b => pyLower b.name = pyLower newName) then
        (apps, .duplicateName)
      else (apps.set i ⟨newName, some newPath, a.default_checked⟩, .edited)
    else (apps, .cancelled)

/-- Embedding of `_delete_selected_application` (src/main.py:400-418): after a
confirmation the selected entry is removed by identity, i.e. position
`i` is dropped. -/
def remove_application (apps : List FlightApp) (i : Nat) (confirm : Bool) :
    List FlightApp × OpOutcome :=
  match apps[i]? with
  | none => (apps, .noSelection)
  | some _ =>
    if confirm then (apps.eraseIdx i, .removed) else (apps, .cancelled)

/-- One user interaction with the registry, with every dialog outcome
made explicit. -/
inductive RegOp where
  | add (ok1 : Bool) (appName : String) (accepted : Bool)
      (newName newPath : String) : RegOp
  | edit (i : Nat) (accepted : Bool) (newName newPath : String) : RegOp
  | remove (i : Nat) (confirm : Bool) : RegOp

/-- Dispatch one operation against the in-memory list. -/
def applyOp (apps : List FlightApp) : RegOp → List FlightApp × OpOutcome
  | .add ok1 appName accepted newName newPath =>
    add_custom_application apps ok1 appName accepted newName newPath
  | .edit i accepted newName newPath =>
    edit_application apps i accepted newName newPath
  | .remove i confirm => remove_application apps i confirm

/-- Run a whole sequence of operations. -/
def runOps (apps : List FlightApp) (ops : List RegOp) : List FlightApp :=
  ops.foldl (fun s op => (applyOp s op).1) apps

/-- Case-insensitive uniqueness of the entry names. -/
def NamesUnique (apps : List FlightApp) : Prop :=
  (apps.map (fun a => pyLower a.name)).Nodup

/-- The add handler followed by its persist: `_save_config` is called
only in the success branch. -/
def add_and_save (p : String) (writeFails : Bool) (file : ConfigFile)
    (apps : List FlightApp) (ok1 : Bool) (appName : String) (accepted : Bool)
    (newName newPath : String) :
    List FlightApp × OpOutcome × ConfigFile × Bool :=
  let r := add_custom_application apps ok1 appName accepted newName newPath
  if r.2 = .added then
    let s := save_config p writeFails file r.1
    (r.1, r.2, s.1, s.2)
  else (r.1, r.2, file, false)

/-- The edit handler followed by its persist: `_save_config` is called
only in the success branch, after the in-place mutation. -/
def edit_and_save (p : String) (writeFails : Bool) (file : ConfigFile)
    (apps : List FlightApp) (i : Nat) (accepted : Bool)
    (newName newPath : String) :
    List FlightApp × OpOutcome × ConfigFile × Bool :=
  let r := edit_application apps i accepted newName newPath
  if r.2 = .edited then
    let s := save_config p writeFails file r.1
    (r.1, r.2, s.1, s.2)
  else (r.1, r.2, file, false)

/-- Host facts the launch sweep consults: whether a path exists on disk
and whether `subprocess.Popen` on it succeeds. -/
structure LaunchEnv where
  pathExists : String → Bool
  spawnOk : String → Bool

/-- Per-entry outcome of the launch sweep. -/
inductive LaunchOutcome where
  | skipped : LaunchOutcome
  | missingTarget : LaunchOutcome
  | launched : LaunchOutcome
  | spawnFailed : LaunchOutcome
deriving DecidableEq

/-- One iteration of the loop in `_launch_selected_applications`
(src/main.py:270-292): unchecked items are passed over; a checked item
whose path is unset, empty or not on disk gets the missing-path warning
without any spawn; otherwise `Popen` is attempted and its failure is
caught per entry. The second component lists the paths actually handed
to `Popen`. -/
def launch_app (env : LaunchEnv) (a : FlightApp) : LaunchOutcome × List String :=
  if a.default_checked then
    match a.path with
    | some pth =>
      if pth ≠ "" ∧ env.pathExists pth then
        if env.spawnOk pth then (.launched, [pth]) else (.spawnFailed, [pth])
      else (.missingTarget, [])
    | none => (.missingTarget, [])
  else (.skipped, [])

/-- The whole sweep over the list (src/main.py:263-294). -/
def launch_all (env : LaunchEnv) (apps : List FlightApp) :
    List (LaunchOutcome × List String) :=
  apps.map (launch_app env)

/-- The source's `launched_count`, the number reported as attempted launches
(src/main.py:264, 285, 298). -/
def launched_count (env : LaunchEnv) (apps : List FlightApp) : Nat :=
  (launch_all env apps).countP (fun r => r.1 = .launched)

/-- All paths the sweep hands to `Popen`. -/
def spawned_paths (env : LaunchEnv) (apps : List FlightApp) : List String :=
  ((launch_all env apps).map (fun r => r.2)).flatten

/-- Abstract `os.path.join` of two components. -/
def pj (a b : String) : String := a ++ "/" ++ b

/-- Abstract `os.path.join` of three components. -/
def join3 (a b c : String) : String := a ++ "/" ++ b ++ "/" ++ c

/-- One row of the Windows descriptor table. -/
structure WinAppInfo where
  exe : String
  subdirs : List String
  registry_key : Option String

/-- Case-sensitive lookup in a descriptor table, the semantics of
`app_info.get(app_name)`. -/
def lookupStr {α : Type} (xs : List (String × α)) (k : String) : Option α :=
  match xs with
  | [] => none
  | (k', v) :: rest => if k' = k then some v else lookupStr rest k

/-- The `app_info` table of `_find_app_path` on Windows
(src/main.py:422-440), keys spelled exactly as in the source. -/
def win_app_info : List (String × WinAppInfo) :=
  [("Microsoft Flight Simulator",
    ⟨"FlightSimulator.exe",
     [join3 "Steam" (pj "steamapps" "common") "MicrosoftFlightSimulator",
      join3 (pj "WpSystem" "Microsoft.FlightSimulator_8wekyb3d8bbwe")
        (pj "LocalCache" "Packages") "Microsoft.FlightSimulator_8wekyb3d8bbwe"],
     some "SOFTWARE\\Microsoft\\Windows\\CurrentVersion\\Uninstall\\Steam App 1250410"⟩),
   ("ElevateX",
    ⟨"Elevatex.exe", ["Elevatex", "ElevateX Beta"], none⟩),
   ("Navigraph Charts",
    ⟨"Navigraph Charts.exe", ["Navigraph", "Navigraph Charts"],
     some "SOFTWARE\\Navigraph\\Charts"⟩)]

/-- The two registry roots probed. -/
inductive RegRoot where
  | hklm : RegRoot
  | hkcu : RegRoot

/-- The Windows host as discovery sees it: the three environment base
directories, a filesystem-existence oracle, whether `winreg` import
succeeded, which keys open, and the registry values. -/
structure WinEnv where
  programFiles : Option String
  programFilesX86 : Option String
  localAppData : Option String
  pathExists : String → Bool
  winregAvailable : Bool
  keyOpens : RegRoot → String → Bool
  queryValue : RegRoot → String → String → Option String

/-- The source's `program_files_paths` after filtering unset variables
(src/main.py:451-456). -/
def basePaths (env : WinEnv) : List String :=
  [env.programFiles, env.programFilesX86, env.localAppData].filterMap id

/-- The body of the outer base-directory loop (src/main.py:458-468): all
candidate subdirectories under this base, then the display-name
directory under the same base. -/
def probeBase (ex : String → Bool) (appName : String) (info : WinAppInfo)
    (base : String) : Option String :=
  match (info.subdirs.map (fun s => join3 base s info.exe)).find? ex with
  | some pth => some pth
  | none =>
    if ex (join3 base appName info.exe) then some (join3 base appName info.exe)
    else none

/-- The whole filesystem phase of Windows discovery. -/
def fsProbe (env : WinEnv) (appName : String) (info : WinAppInfo) :
    Option String :=
  (basePaths env).findSome? (probeBase env.pathExists appName info)

/-- Registry probing under one root (src/main.py:472-495): open the key
read-only, try `InstallLocation` then `Path`, join each with the
executable name and keep the first joined path that exists; a missing
value or key is non-fatal. -/
def regTryRoot (env : WinEnv) (key exe : String) (root : RegRoot) :
    Option String :=
  if env.keyOpens root key then
    let c1 : Option String :=
      match env.queryValue root key "InstallLocation" with
      | some loc => if env.pathExists (pj loc exe) then some (pj loc exe) else none
      | none => none
    match c1 with
    | some pth => some pth
    | none =>
      match env.queryValue root key "Path" with
      | some v => if env.pathExists (pj v exe) then some (pj v exe) else none
      | none => none
  else none

/-- The registry phase (src/main.py:470-497), machine scope then user
scope, skipped entirely when `winreg` is unavailable. -/
def regProbe (env : WinEnv) (key exe : String) : Option String :=
  if env.winregAvailable then
    [RegRoot.hklm, RegRoot.hkcu].findSome? (regTryRoot env key exe)
  else none

/-- Embedding of `_find_app_path` on Windows (src/main.py:421-500): descriptor
lookup, the per-base filesystem loop, then the registry when a key is
configured. -/
def find_app_path_win (env : WinEnv) (appName : String) : Option String :=
  match lookupStr win_app_info appName with
  | none => none
  | some info =>
    match fsProbe env appName info with
    | some pth => some pth
    | none =>
      match info.registry_key with
      | some key => regProbe env key info.exe
      | none => none

/-- Modelled from the spec: the probe order §4.3 claims for Windows —
first every base directory crossed with every candidate subdirectory,
only then the display-name directory under each base, and the registry
last. Written to be compared with `find_app_path_win`, which is the
source's order. -/
def find_spec_order_win (env : WinEnv) (appName : String) : Option String :=
  match lookupStr win_app_info appName with
  | none => none
  | some info =>
    let phase1 := ((basePaths env).map
      (fun base => (info.subdirs.map (fun s => join3 base s info.exe)).find? env.pathExists)).findSome? id
    match phase1 with
    | some pth => some pth
    | none =>
      match ((basePaths env).map (fun base => join3 base appName info.exe)).find? env.pathExists with
      | some pth => some pth
      | none =>
        match info.registry_key with
        | some key => regProbe env key info.exe
        | none => none

/-- One row of the macOS descriptor table. -/
structure MacAppInfo where
  bundle_name : String
  bundle_id : Option String

/-- The `macos_app_info` table (src/main.py:503-508). -/
def macos_app_info : List (String × MacAppInfo) :=
  [("Navigraph Charts", ⟨"Navigraph Charts.app", some "com.navigraph.charts"⟩)]

/-- The macOS host as discovery sees it. `mdfind` returns the stdout
lines of the metadata query, or `none` when the subprocess fails. -/
structure MacEnv where
  pathExists : String → Bool
  homeApplications : String
  mdfind : String → Option (List String)

/-- Embedding of `_find_app_path` on macOS (src/main.py:502-541): descriptor lookup,
`/Applications`, `~/Applications`, then the metadata search whose failure
is treated as no results. -/
def find_app_path_mac (env : MacEnv) (appName : String) : Option String :=
  match lookupStr macos_app_info appName with
  | none => none
  | some info =>
    if env.pathExists (pj "/Applications" info.bundle_name) then
      some (pj "/Applications" info.bundle_name)
    else if env.pathExists (pj env.homeApplications info.bundle_name) then
      some (pj env.homeApplications info.bundle_name)
    else
      match info.bundle_id with
      | some bid =>
        match env.mdfind bid with
        | some paths =>
          paths.find? (fun pth => pth ≠ "" ∧ pth.endsWith ".app" ∧ env.pathExists pth)
        | none => none
      | none => none

/-- The value of `sys.platform` as discovery dispatches on it. -/
inductive Platform where
  | win32 : Platform
  | darwin : Platform
  | other (s : String) : Platform

/-- Embedding of `_find_app_path` (src/main.py:420-544): platform dispatch; any
platform beyond the two supported ones yields no path. -/
def find_app_path (p : Platform) (wenv : WinEnv) (menv : MacEnv)
    (appName : String) : Option String :=
  match p with
  | .win32 => find_app_path_win wenv appName
  | .darwin => find_app_path_mac menv appName
  | .other _ => none

/-- Python truthiness of an optional string: set and nonempty. -/
def optTruthy : Option String → Bool
  | some pth => pth != ""
  | none => false

/-- One iteration of `_auto_discover_applications` (src/main.py:307-318)
over a single entry, given the discovery function: the path is updated
(and counted) exactly when discovery returned a truthy path different
from the current one. The `elif` branch of the source is transcribed
although it is unreachable. -/
def discoverStep (f : String → Option String) (a : FlightApp) :
    FlightApp × Bool :=
  let newPath := f a.name
  if optTruthy newPath && newPath != a.path then ({a with path := newPath}, true)
  else if !optTruthy a.path && optTruthy newPath then ({a with path := newPath}, true)
  else (a, false)

/-- The whole discovery pass (src/main.py:302-321): every entry is
probed, `found_count` counts the updates. -/
def auto_discover (f : String → Option String) (apps : List FlightApp) :
    List FlightApp × Nat :=
  match apps with
  | [] => ([], 0)
  | a :: rest =>
    let r := discoverStep f a
    let rr := auto_discover f rest
    (r.1 :: rr.1, (if r.2 then 1 else 0) + rr.2)

section Helpers

lemma jlookup_setKey_ne (k : String) (v : Json) (k' : String) (h : k' ≠ k) :
    ∀ kvs : List (String × Json),
      jlookup (setKey kvs k v) k' = jlookup kvs k' := by
  intro kvs
  induction kvs with
  | nil => simp only [setKey, jlookup, if_neg (fun hc : k = k' => h hc.symm)]
  | cons hd tl ih =>
    obtain ⟨k1, v1⟩ := hd
    by_cases hk : k1 = k
    · simp only [setKey, if_pos hk, jlookup,
        if_neg (fun hc : k = k' => h hc.symm),
        if_neg (fun hc : k1 = k' => h (hc ▸ hk))]
    · simp only [setKey, if_neg hk, jlookup]
      by_cases hk' : k1 = k'
      · rw [if_pos hk', if_pos hk']
      · rw [if_neg hk', if_neg hk']
        exact ih

lemma jlookup_setKey_self (k : String) (v : Json) :
    ∀ kvs : List (String × Json), jlookup (setKey kvs k v) k = some v := by
  intro kvs
  induction kvs with
  | nil => simp [setKey, jlookup]
  | cons hd tl ih =>
    obtain ⟨k1, v1⟩ := hd
    by_cases hk : k1 = k
    · simp [setKey, if_pos hk, jlookup]
    · simp only [setKey, if_neg hk, jlookup, if_neg hk]
      exact ih

lemma from_to_dict (a : FlightApp) : from_dict (to_dict a) = some a := by
  cases a with
  | mk n p c => cases p <;> rfl

lemma allDecode_map_to_dict : ∀ l : List FlightApp,
    allDecode (l.map to_dict) = some l := by
  intro l
  induction l with
  | nil => rfl
  | cons a t ih => simp only [List.map_cons, allDecode, from_to_dict, ih]

/-- Lemma: `_save_config` with a failing write surfaces the error and leaves the
file as it was. -/
lemma save_config_writeFails (p : String) (f : ConfigFile)
    (apps : List FlightApp) : save_config p true f apps = (f, true) := by
  unfold save_config
  cases f with
  | absent => rfl
  | invalid => rfl
  | valid j => cases j <;> rfl

end Helpers

/-- C10: the seed list installed when the config file is absent and the
seed list installed after a parse error are different — the second entry
is `Elevatex` in the fresh-start list but `ElevateX` in the
corruption-reset list — and only the `ElevateX` spelling is a key of the
Windows discovery descriptor table, whose lookup is case-sensitive. -/
theorem c10_seed_lists_differ :
    initApps ≠ resetApps ∧
    initApps.map (fun a => a.name)
      = ["Microsoft Flight Simulator", "Elevatex", "Navigraph Charts"] ∧
    resetApps.map (fun a => a.name)
      = ["Microsoft Flight Simulator", "ElevateX", "Navigraph Charts"] ∧
    (lookupStr win_app_info "ElevateX").isSome = true ∧
    lookupStr win_app_info "Elevatex" = none := by
  refine ⟨by decide, rfl, rfl, rfl, rfl⟩

/-- C3: `_save_config` merges into the existing document — it replaces
only the array under the current platform key, so every other key `B`
holds the same value after the save as before — and an existing file
that is not valid JSON is treated as an empty document (the save
proceeds exactly as if the file were absent) rather than failing. -/
theorem c3_save_frame (p : String) (kvs : List (String × Json))
    (apps : List FlightApp) (B : String) (hB : B ≠ p) :
    (save_config p false (.valid (.obj kvs)) apps).1
      = .valid (.obj (setKey kvs p (.arr (apps.map to_dict)))) ∧
    jlookup (setKey kvs p (.arr (apps.map to_dict))) B = jlookup kvs B ∧
    save_config p false .invalid apps = save_config p false .absent apps := by
  exact ⟨rfl, jlookup_setKey_ne p (.arr (apps.map to_dict)) B hB kvs, rfl⟩

/-- Witness for C3 at a concrete document and keys. -/
theorem c3_save_frame_witness :
    (save_config "win32" false (.valid (.obj [("darwin", Json.arr [])])) initApps).1
      = .valid (.obj (setKey [("darwin", Json.arr [])] "win32"
          (.arr (initApps.map to_dict)))) ∧
    jlookup (setKey [("darwin", Json.arr [])] "win32"
        (.arr (initApps.map to_dict))) "darwin"
      = jlookup [("darwin", Json.arr [])] "darwin" ∧
    save_config "win32" false .invalid initApps
      = save_config "win32" false .absent initApps :=
  c3_save_frame "win32" [("darwin", Json.arr [])] initApps "darwin" (by decide)

/-- C5: in a launch sweep an unchecked entry is skipped — nothing is
handed to `Popen` and it does not enter the attempted count — a checked
entry whose path is unset, empty or absent from disk yields the
missing-target outcome with no spawn attempt, and the sweep processes
every entry regardless of earlier failures (it is a pointwise map over
the list). -/
theorem c5_launch_sweep (env : LaunchEnv) (a : FlightApp)
    (apps rest : List FlightApp) :
    (a.default_checked = false →
      launch_app env a = (.skipped, []) ∧
      launched_count env (a :: rest) = launched_count env rest) ∧
    (a.default_checked = true →
      (∀ pth, a.path = some pth → pth = "" ∨ env.pathExists pth = false) →
      launch_app env a = (.missingTarget, [])) ∧
    launch_all env (apps ++ rest) = launch_all env apps ++ launch_all env rest ∧
    launch_all env (a :: rest) = launch_app env a :: launch_all env rest ∧
    spawned_paths env (a :: rest)
      = (launch_app env a).2 ++ spawned_paths env rest := by
  refine ⟨?_, ?_, ?_, rfl, ?_⟩
  · intro hc
    have h1 : launch_app env a = (.skipped, []) := by
      unfold launch_app
      rw [if_neg (by simp [hc])]
    refine ⟨h1, ?_⟩
    simp [launched_count, launch_all, List.countP_cons, h1]
  · intro hc hp
    unfold launch_app
    rw [if_pos (by simp [hc])]
    cases hpath : a.path with
    | none => rfl
    | some pth =>
      rcases hp pth hpath with h | h <;> simp [h]
  · simp [launch_all]
  · simp [spawned_paths, launch_all]

/-- Witness for C5: one unchecked entry, one checked entry with a dead
path, on a host where nothing exists. -/
theorem c5_launch_sweep_witness :
    launch_app ⟨fun _ => false, fun _ => true⟩ ⟨"A", some "/x", false⟩
      = (.skipped, []) ∧
    launch_app ⟨fun _ => false, fun _ => true⟩ ⟨"B", some "/gone", true⟩
      = (.missingTarget, []) ∧
    launched_count ⟨fun _ => false, fun _ => true⟩
      [⟨"A", some "/x", false⟩] = 0 := by
  have h1 := (c5_launch_sweep ⟨fun _ => false, fun _ => true⟩
    ⟨"A", some "/x", false⟩ [] []).1 rfl
  have h2 := ((c5_launch_sweep ⟨fun _ => false, fun _ => true⟩
    ⟨"B", some "/gone", true⟩ [] []).2.1) rfl
    (by intro pth hp; right; rfl)
  exact ⟨h1.1, h2, by simpa [launched_count, launch_all] using h1.2⟩

/-- C2: startup config loading is a three-way case split. An absent
file keeps the in-memory seed list and immediately persists it as a
valid JSON document. A parsed file whose current-platform value is
missing or an empty array also keeps the seeds and persists. A parsed
file with a non-empty entry array under the current platform key
replaces the in-memory list with exactly that array, with no warning and
no write. An invalid file resets the list to the three (reset) seed
entries, surfaces a warning, and immediately writes the seed state back
as valid JSON. -/
theorem c2_initialize_cases (p : String) (current : List FlightApp) :
    (load_config p current false .absent
       = ⟨current, false, (save_config p false .absent current).1⟩ ∧
     (save_config p false .absent current).1
       = .valid (.obj [(p, .arr (current.map to_dict))])) ∧
    (∀ kvs : List (String × Json),
      jlookup kvs p = none ∨ jlookup kvs p = some (.arr []) →
      load_config p current false (.valid (.obj kvs))
        = ⟨current, false, (save_config p false (.valid (.obj kvs)) current).1⟩) ∧
    (∀ (kvs : List (String × Json)) (xs : List Json) (apps : List FlightApp),
      jlookup kvs p = some (.arr xs) → xs ≠ [] → allDecode xs = some apps →
      load_config p current false (.valid (.obj kvs))
        = ⟨apps, false, .valid (.obj kvs)⟩) ∧
    (load_config p current false .invalid
       = ⟨resetApps, true, (save_config p false .invalid resetApps).1⟩ ∧
     (save_config p false .invalid resetApps).1
       = .valid (.obj [(p, .arr (resetApps.map to_dict))])) := by
  refine ⟨⟨rfl, rfl⟩, ?_, ?_, rfl, rfl⟩
  · intro kvs h
    rcases h with h | h <;> simp [load_config, h, jsonTruthy]
  · intro kvs xs apps h1 h2 h3
    have hxs : xs.isEmpty = false := by
      cases xs with
      | nil => exact absurd rfl h2
      | cons y ys => rfl
    simp [load_config, h1, jsonTruthy, hxs, h3]

/-- Witness for C2 at concrete files for each branch. -/
theorem c2_initialize_cases_witness :
    load_config "linux" initApps false .absent
      = ⟨initApps, false, (save_config "linux" false .absent initApps).1⟩ ∧
    load_config "linux" initApps false
        (.valid (.obj [("win32", Json.arr [])]))
      = ⟨initApps, false,
         (save_config "linux" false
           (.valid (.obj [("win32", Json.arr [])])) initApps).1⟩ ∧
    load_config "linux" initApps false
        (.valid (.obj [("linux", Json.arr [to_dict ⟨"X", some "/bin/true", true⟩])]))
      = ⟨[⟨"X", some "/bin/true", true⟩], false,
         .valid (.obj [("linux", Json.arr [to_dict ⟨"X", some "/bin/true", true⟩])])⟩ ∧
    load_config "linux" initApps false .invalid
      = ⟨resetApps, true, (save_config "linux" false .invalid resetApps).1⟩ := by
  have h := c2_initialize_cases "linux" initApps
  refine ⟨h.1.1, ?_, ?_, h.2.2.2.1⟩
  · exact h.2.1 [("win32", Json.arr [])] (Or.inl rfl)
  · exact h.2.2.1 [("linux", Json.arr [to_dict ⟨"X", some "/bin/true", true⟩])]
      [to_dict ⟨"X", some "/bin/true", true⟩] [⟨"X", some "/bin/true", true⟩]
      rfl (List.cons_ne_nil _ _) rfl

/-- C4 amended: for every NON-EMPTY list of entries, saving under the
current platform key and reloading for the same key yields the same list
in the same order (name, path and checked flag preserved, since the
lists are equal). The empty list does not round-trip: loading an empty
platform array keeps the seed list instead (see the counterexample). -/
theorem c4_roundtrip (p : String) (current apps : List FlightApp)
    (f : ConfigFile) (hne : apps ≠ []) (hm : mergeReadable f = true) :
    (load_config p current false ((save_config p false f apps).1)).apps
      = apps := by
  have key : ∀ kvs' : List (String × Json),
      (load_config p current false
        (.valid (.obj (setKey kvs' p (.arr (apps.map to_dict)))))).apps
        = apps := by
    intro kvs'
    have hl := jlookup_setKey_self p (.arr (apps.map to_dict)) kvs'
    have hxs : (apps.map to_dict).isEmpty = false := by
      cases apps with
      | nil => exact absurd rfl hne
      | cons y ys => rfl
    simp [load_config, hl, jsonTruthy, hxs, allDecode_map_to_dict]
  cases f with
  | absent => exact key []
  | invalid => exact key []
  | valid j =>
    cases j with
    | obj kvs => exact key kvs
    | null => simp [mergeReadable] at hm
    | bool b => simp [mergeReadable] at hm
    | num n => simp [mergeReadable] at hm
    | str s => simp [mergeReadable] at hm
    | arr xs => simp [mergeReadable] at hm

/-- Counterexample to C4 as stated: the empty entry list does not
round-trip — after saving it, loading finds an empty platform array and
keeps the seed list, which is not the empty list. -/
theorem c4_roundtrip_counterexample :
    (load_config "linux" initApps false
        ((save_config "linux" false .absent ([] : List FlightApp)).1)).apps
      = initApps ∧ initApps ≠ ([] : List FlightApp) :=
  ⟨rfl, by decide⟩

/-- Witness for C4 on a concrete non-empty list. -/
theorem c4_roundtrip_witness :
    (load_config "linux" initApps false
        ((save_config "linux" false .absent resetApps).1)).apps = resetApps :=
  c4_roundtrip "linux" initApps resetApps .absent (by decide) rfl

lemma discoverStep_flag (f : String → Option String) (a : FlightApp) :
    (discoverStep f a).2 = ((discoverStep f a).1.path != a.path) := by
  unfold discoverStep
  by_cases h1 : (optTruthy (f a.name) && (f a.name != a.path)) = true
  · rw [if_pos h1]
    simp only [Bool.and_eq_true] at h1
    simp [h1.2]
  · rw [if_neg h1]
    by_cases h2 : (!optTruthy a.path && optTruthy (f a.name)) = true
    · rw [if_pos h2]
      simp only [Bool.and_eq_true, Bool.not_eq_true'] at h2
      cases hf : f a.name with
      | none => rw [hf] at h2; simp [optTruthy] at h2
      | some pth =>
        rw [hf] at h2
        have hp : pth ≠ "" := by
          have := h2.2
          simpa [optTruthy] using this
        cases hap : a.path with
        | none => simp
        | some q =>
          rw [hap] at h2
          have hq : q = "" := by simpa [optTruthy] using h2.1
          subst hq
          simp [hp]
    · rw [if_neg h2]
      simp

lemma discoverStep_unmoved (f : String → Option String) (a : FlightApp)
    (h : f a.name = none) : discoverStep f a = (a, false) := by
  simp [discoverStep, h, optTruthy]

/-- C8: discovery is total — a name absent from the platform descriptor
table yields no path on Windows and on macOS, and any unsupported
platform yields no path for every name — the pass leaves an entry
untouched whenever discovery returns nothing; an entry is rewritten only
when discovery returned a non-empty path different from the current one,
in which case only its path changes; and the reported count equals the
number of entries whose path actually changed. -/
theorem c8_discovery_total (wenv : WinEnv) (menv : MacEnv) (s name : String)
    (f : String → Option String) (a : FlightApp) (apps : List FlightApp) :
    (lookupStr win_app_info name = none → find_app_path_win wenv name = none) ∧
    (lookupStr macos_app_info name = none → find_app_path_mac menv name = none) ∧
    find_app_path (.other s) wenv menv name = none ∧
    (f a.name = none → discoverStep f a = (a, false)) ∧
    ((discoverStep f a).1 ≠ a →
      ∃ pth, f a.name = some pth ∧ pth ≠ "" ∧ a.path ≠ some pth ∧
        (discoverStep f a).1 = {a with path := some pth} ∧
        (discoverStep f a).2 = true) ∧
    (auto_discover f apps).2
      = ((auto_discover f apps).1.zip apps).countP
          (fun pr => pr.1.path != pr.2.path) := by
  refine ⟨?_, ?_, rfl, discoverStep_unmoved f a, ?_, ?_⟩
  · intro h; simp [find_app_path_win, h]
  · intro h; simp [find_app_path_mac, h]
  · intro hne
    cases hf : f a.name with
    | none => exact absurd (congrArg Prod.fst (discoverStep_unmoved f a hf)) hne
    | some pth =>
      by_cases hp : pth = ""
      · subst hp
        exact absurd (by simp [discoverStep, hf, optTruthy]) hne
      · by_cases hq : a.path = some pth
        · exact absurd (by simp [discoverStep, hf, optTruthy, hq, hp]) hne
        · refine ⟨pth, rfl, hp, hq, ?_, ?_⟩
          · simp [discoverStep, hf, optTruthy, hp, Ne.symm hq]
          · simp [discoverStep, hf, optTruthy, hp, Ne.symm hq]
  · induction apps with
    | nil => rfl
    | cons b rest ih =>
      simp only [auto_discover, List.zip_cons_cons, List.countP_cons]
      rw [← discoverStep_flag f b, ← ih]
      cases (discoverStep f b).2 <;> simp [Nat.add_comm]

/-- Witness for C8: the name `Elevatex` is in no descriptor table, and a
pass over the fresh seed list with Windows discovery on a host without
those applications changes nothing and counts zero. -/
theorem c8_discovery_total_witness :
    find_app_path_win
      ⟨none, none, none, fun _ => false, false, fun _ _ => false,
       fun _ _ _ => none⟩ "Elevatex" = none ∧
    discoverStep (fun _ => none) ⟨"Elevatex", none, false⟩
      = (⟨"Elevatex", none, false⟩, false) ∧
    (auto_discover (fun _ => none) initApps).2 = 0 := by
  have h := c8_discovery_total
    ⟨none, none, none, fun _ => false, false, fun _ _ => false, fun _ _ _ => none⟩
    ⟨fun _ => false, "/home/u/Applications", fun _ => none⟩
    "linux" "Elevatex" (fun _ => none) ⟨"Elevatex", none, false⟩ initApps
  refine ⟨h.1 rfl, h.2.2.2.1 rfl, ?_⟩
  rw [h.2.2.2.2.2]
  rfl

/-- Counterexample to C6 as stated: the details dialog can change the
name to the empty string after the initial prompt and the add still goes
through — an entry whose name is empty (so certainly empty after
trimming) is appended with no EmptyName rejection. -/
theorem c6_add_counterexample :
    add_custom_application [] true "A" true "" "/p"
      = ([⟨"", some "/p", false⟩], .added) := by decide

/-- C6 amended: the add flow rejects an empty (untrimmed) initial prompt
name with the empty-name error and an empty (untrimmed) final path with
the empty-path error, both before any mutation; every non-added outcome
leaves the list unchanged; on success the entry appended carries the
final dialog name, the final path and `checked = false`, the
case-insensitive duplicate check has been applied to the final name
(unless it equals the prompted name, which was itself checked), and the
new list is persisted. No whitespace trimming is performed and the final
name's emptiness is not re-checked. -/
theorem c6_add_validation (p : String) (file : ConfigFile)
    (apps : List FlightApp) (ok1 accepted : Bool)
    (appName newName newPath : String) :
    add_custom_application apps true "" accepted newName newPath
      = (apps, .emptyName) ∧
    (appName ≠ "" →
      apps.any (fun a => pyLower a.name = pyLower appName) = false →
      add_custom_application apps true appName true newName ""
        = (apps, .emptyPath)) ∧
    ((add_custom_application apps ok1 appName accepted newName newPath).2
        ≠ .added →
      (add_custom_application apps ok1 appName accepted newName newPath).1
        = apps) ∧
    ((add_custom_application apps ok1 appName accepted newName newPath).2
        = .added →
      (add_custom_application apps ok1 appName accepted newName newPath).1
        = apps ++ [⟨newName, some newPath, false⟩] ∧
      (pyLower newName = pyLower appName ∨
        apps.any (fun a => pyLower a.name = pyLower newName) = false)) ∧
    ((add_custom_application apps ok1 appName accepted newName newPath).2
        = .added →
      add_and_save p false file apps ok1 appName accepted newName newPath
        = (apps ++ [⟨newName, some newPath, false⟩], .added,
           (save_config p false file
             (apps ++ [⟨newName, some newPath, false⟩])).1,
           (save_config p false file
             (apps ++ [⟨newName, some newPath, false⟩])).2)) := by
  have hadded : (add_custom_application apps ok1 appName accepted newName
      newPath).2 = .added →
      (add_custom_application apps ok1 appName accepted newName newPath).1
        = apps ++ [⟨newName, some newPath, false⟩] ∧
      (pyLower newName = pyLower appName ∨
        apps.any (fun a => pyLower a.name = pyLower newName) = false) := by
    intro h
    unfold add_custom_application at h ⊢
    split_ifs at h ⊢ <;> simp_all <;> tauto
  refine ⟨?_, ?_, ?_, hadded, ?_⟩
  · simp [add_custom_application]
  · intro h1 h2
    simp [add_custom_application, h1, h2]
  · intro h
    unfold add_custom_application at h ⊢
    split_ifs at h ⊢ <;> simp_all
  · intro h
    have hl := (hadded h).1
    simp only [add_and_save, h, if_pos, hl]

/-- Witness for C6 at concrete inputs for each branch. -/
theorem c6_add_validation_witness :
    add_custom_application initApps true "" true "B" "/b"
      = (initApps, .emptyName) ∧
    add_custom_application initApps true "TrackIR" true "TrackIR" ""
      = (initApps, .emptyPath) ∧
    (add_custom_application initApps true "elevatex" true "elevatex" "/e").1
      = initApps ∧
    add_and_save "linux" false .absent initApps true "TrackIR" true "TrackIR" "/t"
      = (initApps ++ [⟨"TrackIR", some "/t", false⟩], .added,
         (save_config "linux" false .absent
           (initApps ++ [⟨"TrackIR", some "/t", false⟩])).1,
         (save_config "linux" false .absent
           (initApps ++ [⟨"TrackIR", some "/t", false⟩])).2) := by
  refine ⟨(c6_add_validation "linux" .absent initApps true true "x" "B" "/b").1,
    (c6_add_validation "linux" .absent initApps true true "TrackIR" "TrackIR"
      "").2.1 (by decide) (by decide), ?_, ?_⟩
  · exact (c6_add_validation "linux" .absent initApps true true "elevatex"
      "elevatex" "/e").2.2.1 (by decide)
  · exact (c6_add_validation "linux" .absent initApps true true "TrackIR"
      "TrackIR" "/t").2.2.2.2 (by decide)

/-- Counterexample to C9 as stated: when the save triggered by an edit
fails, the in-memory registry is NOT left as it was before the
operation — the edited entry keeps its new name and path even though the
write failed and the error was surfaced. -/
theorem c9_save_failure_counterexample :
    (edit_and_save "linux" true .absent [⟨"A", some "/a", false⟩] 0 true
        "B" "/b").1 ≠ [⟨"A", some "/a", false⟩] ∧
    (edit_and_save "linux" true .absent [⟨"A", some "/a", false⟩] 0 true
        "B" "/b").2.2.2 = true := by decide

/-- C9 amended: when the save triggered by a successful edit fails with
an IO error, the error is surfaced to the user and the file is left as
it was, but the operation is not rolled back — the in-memory list keeps
the mutated entry. -/
theorem c9_save_failure (p : String) (file : ConfigFile)
    (apps : List FlightApp) (i : Nat) (a : FlightApp)
    (newName newPath : String) (ha : apps[i]? = some a)
    (h1 : newName ≠ "") (h2 : newPath ≠ "")
    (h3 : ¬(pyLower newName ≠ pyLower a.name ∧
        (apps.eraseIdx i).any (fun b => pyLower b.name = pyLower newName)
          = true)) :
    edit_and_save p true file apps i true newName newPath
      = (apps.set i ⟨newName, some newPath, a.default_checked⟩, .edited,
         file, true) := by
  have he : edit_application apps i true newName newPath
      = (apps.set i ⟨newName, some newPath, a.default_checked⟩, .edited) := by
    unfold edit_application
    simp only [ha]
    rw [if_pos trivial, if_neg h1, if_neg h2, if_neg h3]
  simp [edit_and_save, he, save_config_writeFails]

/-- Witness for C9 at a concrete registry and failing disk. -/
theorem c9_save_failure_witness :
    edit_and_save "linux" true .absent [⟨"A", some "/a", false⟩] 0 true
        "B" "/b"
      = ([⟨"B", some "/b", false⟩], .edited, .absent, true) := by
  have h := c9_save_failure "linux" .absent [⟨"A", some "/a", false⟩] 0
    ⟨"A", some "/a", false⟩ "B" "/b" rfl (by decide) (by decide)
    (by intro hc; exact absurd hc.2 (by decide))
  simpa using h

lemma probeBase_eq_find (ex : String → Bool) (appName : String)
    (info : WinAppInfo) (base : String) :
    probeBase ex appName info base
      = (info.subdirs.map (fun s => join3 base s info.exe)
          ++ [join3 base appName info.exe]).find? ex := by
  unfold probeBase
  rw [List.find?_append]
  cases h : (info.subdirs.map (fun s => join3 base s info.exe)).find? ex with
  | some pth => rfl
  | none =>
    simp only [Option.none_orElse]
    cases he : ex (join3 base appName info.exe) <;> simp [List.find?, he]

lemma findSome_map_id_flatten {α : Type} (p : α → Bool) :
    ∀ bs : List (List α),
      (bs.map (fun l => l.find? p)).findSome? id = bs.flatten.find? p := by
  intro bs
  induction bs with
  | nil => rfl
  | cons l rest ih =>
    simp only [List.map_cons, List.findSome?_cons, List.flatten_cons,
      List.find?_append, id]
    cases h : l.find? p with
    | some x => simp
    | none => simpa using ih

lemma findSome_eq_map {α β : Type} (g : α → Option β) :
    ∀ l : List α, l.findSome? g = (l.map g).findSome? id := by
  intro l
  induction l with
  | nil => rfl
  | cons a rest ih =>
    simp only [List.map_cons, List.findSome?_cons, id]
    cases h : g a with
    | some x => rfl
    | none => exact ih

lemma fsProbe_flat (env : WinEnv) (appName : String) (info : WinAppInfo) :
    fsProbe env appName info
      = (((basePaths env).map (fun b =>
            info.subdirs.map (fun s => join3 b s info.exe)
              ++ [join3 b appName info.exe])).flatten).find? env.pathExists := by
  unfold fsProbe
  rw [findSome_eq_map]
  have hm : (basePaths env).map (probeBase env.pathExists appName info)
      = ((basePaths env).map (fun b =>
          info.subdirs.map (fun s => join3 b s info.exe)
            ++ [join3 b appName info.exe])).map
          (fun l => l.find? env.pathExists) := by
    rw [List.map_map]
    exact List.map_congr_left (fun b _ => probeBase_eq_find env.pathExists appName info b)
  rw [hm, findSome_map_id_flatten]

/-- Counterexample to C7 as stated: with ProgramFiles and
ProgramFiles(x86) both set, a file at `ProgramFiles/ElevateX` (the
display-name directory of the first base) and a file at
`ProgramFiles(x86)/Elevatex` (a candidate subdirectory of the second
base), the code returns the first base's display-name hit, while the
claimed order — all base-times-subdirectory combinations before any
display-name probe — would return the second base's subdirectory hit. -/
theorem c7_probe_order_counterexample :
    find_app_path_win
      ⟨some "C:/PF", some "C:/PFx86", none,
       (fun s => s == "C:/PF/ElevateX/Elevatex.exe"
              || s == "C:/PFx86/Elevatex/Elevatex.exe"),
       false, fun _ _ => false, fun _ _ _ => none⟩ "ElevateX"
      = some "C:/PF/ElevateX/Elevatex.exe" ∧
    find_spec_order_win
      ⟨some "C:/PF", some "C:/PFx86", none,
       (fun s => s == "C:/PF/ElevateX/Elevatex.exe"
              || s == "C:/PFx86/Elevatex/Elevatex.exe"),
       false, fun _ _ => false, fun _ _ _ => none⟩ "ElevateX"
      = some "C:/PFx86/Elevatex/Elevatex.exe" ∧
    ("C:/PF/ElevateX/Elevatex.exe" : String)
      ≠ "C:/PFx86/Elevatex/Elevatex.exe" := by
  refine ⟨rfl, rfl, by decide⟩

/-- C7 amended: Windows discovery probes per base directory — for each
of ProgramFiles, ProgramFiles(x86) and LocalAppData (unset ones
skipped), it tests `base/subdir/exeName` for every candidate
subdirectory and then `base/appName/exeName` under that same base,
before moving on to the next base directory; the registry is consulted
only after this whole filesystem loop finds nothing. -/
theorem c7_win_probe_order (env : WinEnv) (name : String)
    (info : WinAppInfo) (h : lookupStr win_app_info name = some info) :
    (find_app_path_win env name
      = match (((basePaths env).map (fun b =>
            info.subdirs.map (fun s => join3 b s info.exe)
              ++ [join3 b name info.exe])).flatten).find? env.pathExists with
        | some pth => some pth
        | none =>
          match info.registry_key with
          | some key => regProbe env key info.exe
          | none => none) ∧
    (∀ pth, fsProbe env name info = some pth →
      find_app_path_win env name = some pth) := by
  constructor
  · unfold find_app_path_win
    rw [h, ← fsProbe_flat]
  · intro pth hp
    simp only [find_app_path_win, h, hp]

/-- Witness for C7 on a concrete environment. -/
theorem c7_win_probe_order_witness :
    find_app_path_win
      ⟨some "C:/PF", none, none, fun _ => false, false,
       fun _ _ => false, fun _ _ _ => none⟩ "Navigraph Charts"
      = match ((((basePaths
            ⟨some "C:/PF", none, none, fun _ => false, false,
             fun _ _ => false, fun _ _ _ => none⟩).map (fun b =>
            (⟨"Navigraph Charts.exe", ["Navigraph", "Navigraph Charts"],
              some "SOFTWARE\\Navigraph\\Charts"⟩ : WinAppInfo).subdirs.map
                (fun s => join3 b s "Navigraph Charts.exe")
              ++ [join3 b "Navigraph Charts" "Navigraph Charts.exe"]))).flatten).find?
          (fun _ => false) with
        | some pth => some pth
        | none => regProbe
            ⟨some "C:/PF", none, none, fun _ => false, false,
             fun _ _ => false, fun _ _ _ => none⟩
            "SOFTWARE\\Navigraph\\Charts" "Navigraph Charts.exe" :=
  (c7_win_probe_order
    ⟨some "C:/PF", none, none, fun _ => false, false,
     fun _ _ => false, fun _ _ _ => none⟩ "Navigraph Charts"
    ⟨"Navigraph Charts.exe", ["Navigraph", "Navigraph Charts"],
     some "SOFTWARE\\Navigraph\\Charts"⟩ rfl).1

lemma nodup_map_set {α β : Type} (f : α → β) :
    ∀ (l : List α) (i : Nat) (x : α),
      (l.map f).Nodup →
      (∀ b ∈ l.eraseIdx i, f b ≠ f x) →
      ((l.set i x).map f).Nodup := by
  intro l
  induction l with
  | nil =>
    intro i x h _
    simpa using h
  | cons a t ih =>
    intro i x hnd hne
    cases i with
    | zero =>
      simp only [List.set_cons_zero, List.map_cons, List.nodup_cons] at hnd ⊢
      refine ⟨?_, hnd.2⟩
      intro hmem
      obtain ⟨b, hb, hfb⟩ := List.mem_map.1 hmem
      exact hne b (by simpa using hb) hfb
    | succ i =>
      simp only [List.set_cons_succ, List.map_cons, List.nodup_cons] at hnd ⊢
      have hne' : ∀ b ∈ t.eraseIdx i, f b ≠ f x := by
        intro b hb
        exact hne b (by simp [List.eraseIdx_cons_succ, hb])
      refine ⟨?_, ih i x hnd.2 hne'⟩
      intro hmem
      obtain ⟨b, hb, hfb⟩ := List.mem_map.1 hmem
      rcases List.mem_or_eq_of_mem_set hb with hbt | hbx
      · exact hnd.1 (List.mem_map.2 ⟨b, hbt, hfb⟩)
      · subst hbx
        exact hne a (by simp [List.eraseIdx_cons_succ]) hfb.symm

lemma nodup_map_get_ne_erase {α β : Type} (f : α → β) :
    ∀ (l : List α) (i : Nat) (a : α),
      (l.map f).Nodup → l[i]? = some a →
      ∀ b ∈ l.eraseIdx i, f b ≠ f a := by
  intro l
  induction l with
  | nil =>
    intro i a _ hga
    simp at hga
  | cons hd t ih =>
    intro i a hnd hga
    cases i with
    | zero =>
      simp only [List.getElem?_cons_zero, Option.some.injEq] at hga
      subst hga
      simp only [List.eraseIdx_cons_zero]
      intro b hb hfb
      simp only [List.map_cons, List.nodup_cons] at hnd
      exact hnd.1 (List.mem_map.2 ⟨b, hb, hfb⟩)
    | succ i =>
      simp only [List.getElem?_cons_succ] at hga
      simp only [List.eraseIdx_cons_succ]
      intro b hb hfb
      simp only [List.map_cons, List.nodup_cons] at hnd
      rcases List.mem_cons.1 hb with hbhd | hbt
      · subst hbhd
        have hat : a ∈ t := List.getElem?_mem hga
        exact hnd.1 (by rw [hfb]; exact List.mem_map.2 ⟨a, hat, rfl⟩)
      · exact ih i a hnd.2 hga b hbt hfb

lemma add_preserves_unique (apps : List FlightApp) (ok1 : Bool)
    (appName : String) (accepted : Bool) (newName newPath : String)
    (h : NamesUnique apps) :
    NamesUnique
      (add_custom_application apps ok1 appName accepted newName newPath).1 := by
  unfold NamesUnique at h ⊢
  unfold add_custom_application
  split_ifs with h1 h2 h3 h4 h5
  · exact h
  · exact h
  · exact h
  · -- the added branch
    have hnotin : pyLower newName ∉ apps.map (fun a => pyLower a.name) := by
      intro hmem
      obtain ⟨b, hb, hfb⟩ := List.mem_map.1 hmem
      by_cases he : pyLower newName = pyLower appName
      · exact h2 (List.any_eq_true.2 ⟨b, hb, by simp [hfb, he]⟩)
      · exact h5 ⟨he, List.any_eq_true.2 ⟨b, hb, by simp [hfb]⟩⟩
    simp only [List.map_append, List.map_cons, List.map_nil]
    rw [List.nodup_append]
    exact ⟨h, List.nodup_singleton _, by simpa using hnotin⟩
  · exact h
  · exact h
  · exact h

lemma edit_preserves_unique (apps : List FlightApp) (i : Nat)
    (accepted : Bool) (newName newPath : String) (h : NamesUnique apps) :
    NamesUnique (edit_application apps i accepted newName newPath).1 := by
  unfold NamesUnique at h ⊢
  cases hga : apps[i]? with
  | none =>
    unfold edit_application
    simp only [hga]
    exact h
  | some a =>
    unfold edit_application
    simp only [hga]
    split_ifs with h1 h2 h3 h4
    · exact h
    · exact h
    · exact h
    · -- the edited branch
      apply nodup_map_set _ apps i _ h
      intro b hb
      by_cases he : pyLower newName = pyLower a.name
      · have hba := nodup_map_get_ne_erase _ apps i a h hga b hb
        simpa [he] using hba
      · intro hfb
        exact h4 ⟨he, List.any_eq_true.2 ⟨b, hb, by simpa using hfb⟩⟩
    · exact h

lemma remove_preserves_unique (apps : List FlightApp) (i : Nat)
    (confirm : Bool) (h : NamesUnique apps) :
    NamesUnique (remove_application apps i confirm).1 := by
  unfold NamesUnique at h ⊢
  cases hga : apps[i]? with
  | none =>
    unfold remove_application
    simp only [hga]
    exact h
  | some a =>
    unfold remove_application
    simp only [hga]
    split_ifs with h1
    · exact List.Nodup.sublist
        (List.Sublist.map _ (List.eraseIdx_sublist apps i)) h
    · exact h

lemma applyOp_preserves (apps : List FlightApp) (op : RegOp)
    (h : NamesUnique apps) : NamesUnique (applyOp apps op).1 := by
  cases op with
  | add ok1 appName accepted newName newPath =>
    exact add_preserves_unique apps ok1 appName accepted newName newPath h
  | edit i accepted newName newPath =>
    exact edit_preserves_unique apps i accepted newName newPath h
  | remove i confirm => exact remove_preserves_unique apps i confirm h

lemma runOps_preserves : ∀ (ops : List RegOp) (apps : List FlightApp),
    NamesUnique apps → NamesUnique (runOps apps ops) := by
  intro ops
  induction ops with
  | nil => intro apps h; exact h
  | cons op rest ih =>
    intro apps h
    exact ih _ (applyOp_preserves apps op h)

lemma applyOp_duplicate_unchanged (apps : List FlightApp) (op : RegOp) :
    (applyOp apps op).2 = .duplicateName → (applyOp apps op).1 = apps := by
  cases op with
  | add ok1 appName accepted newName newPath =>
    intro hdup
    have hd : (add_custom_application apps ok1 appName accepted newName
        newPath).2 = .duplicateName := hdup
    show (add_custom_application apps ok1 appName accepted newName newPath).1
      = apps
    unfold add_custom_application at hd ⊢
    split_ifs at hd ⊢ <;> simp_all
  | edit i accepted newName newPath =>
    intro hdup
    have hd : (edit_application apps i accepted newName newPath).2
      = .duplicateName := hdup
    show (edit_application apps i accepted newName newPath).1 = apps
    unfold edit_application at hd ⊢
    cases hga : apps[i]? with
    | none => simp [hga]
    | some a =>
      simp only [hga] at hd ⊢
      split_ifs at hd ⊢ <;> simp_all
  | remove i confirm =>
    intro hdup
    have hd : (remove_application apps i confirm).2 = .duplicateName := hdup
    show (remove_application apps i confirm).1 = apps
    unfold remove_application at hd ⊢
    cases hga : apps[i]? with
    | none => simp [hga]
    | some a =>
      simp only [hga] at hd ⊢
      split_ifs at hd ⊢ <;> simp_all

/-- C1: starting from a registry whose names are case-insensitively
unique, no sequence of add, edit or remove interactions can produce two
entries with case-insensitively equal names; and whenever an add or a
rename is rejected as a duplicate, the entry list is exactly as it was
before the operation. -/
theorem c1_registry_unique (apps : List FlightApp) (h : NamesUnique apps) :
    (∀ ops : List RegOp, NamesUnique (runOps apps ops)) ∧
    (∀ op : RegOp, (applyOp apps op).2 = .duplicateName →
      (applyOp apps op).1 = apps) := by
  exact ⟨fun ops => runOps_preserves ops apps h,
         fun op => applyOp_duplicate_unchanged apps op⟩

/-- Witness for C1: the seed registry is unique, stays unique under a
concrete add-then-remove run, and a case-colliding add leaves it
untouched. -/
theorem c1_registry_unique_witness :
    NamesUnique (runOps initApps
      [RegOp.add true "TrackIR" true "TrackIR" "/t", RegOp.remove 0 true]) ∧
    (applyOp initApps (RegOp.add true "elevatex" true "elevatex" "/e")).1
      = initApps := by
  have h := c1_registry_unique initApps (by unfold NamesUnique; decide)
  exact ⟨h.1 _, h.2 _ (by decide)⟩

end AeroLaunch
